import Mathlib

/-!
# PolyInsider — verification of the ingestion-and-scoring engine

Shallow embedding of `src/sonar_insider.py` (the data engine: market
discovery, trade scoring, the per-message decode/filter/persist path of the
WebSocket receive loop, and the two store operations).

Conventions of the embedding:
* Python floats are modelled as `ℚ`.  (IEEE rounding artefacts are out of
  scope; every concrete value appearing in a theorem is exactly
  representable.)
* Decoded JSON values are the inductive `Json`.  `json.loads` itself is not
  reimplemented: an inbound WebSocket frame is classified by its parse
  outcome (`Frame.badJson` / `Frame.payload`), which is the only way the
  loop consumes the parser.
* Python exceptions relevant to the decode path are `PyErr`; the inner
  `except (json.JSONDecodeError, ValueError, KeyError)` handler catches
  exactly `valueError` (a `JSONDecodeError` is the `Frame.badJson` case and
  `KeyError` cannot arise from `dict.get`), while `TypeError` /
  `AttributeError` escape to the outer handler and terminate the receive
  loop for that connection.
* `datetime.utcnow()` is threaded as an opaque `now : String` argument; the
  clock value is irrelevant to every claim.
* The SQLite tables are association lists: `trades` is append-only
  (`insert_trade`), `markets` is keyed by `token_id` (`upsert_market`).
-/

namespace PolyInsider

/-- A decoded JSON value (the result type of `json.loads`). -/
inductive Json where
  | null
  | bool (b : Bool)
  | num (q : ℚ)
  | str (s : String)
  | arr (elems : List Json)
  | obj (fields : List (String × Json))

/-- Python truthiness of a decoded JSON value (`None`, `0`, `""`, `[]`,
`\x7b\x7d` are falsy). -/
def Json.truthy : Json → Bool
  | .null => false
  | .bool b => b
  | .num q => q != 0
  | .str s => s != ""
  | .arr l => !l.isEmpty
  | .obj l => !l.isEmpty

/-- Models `event.get(k)`: `None` (here `Json.null`) when the key is absent.  In the
model this is only applied to objects; non-objects are screened off before
any field access, mirroring the `AttributeError` a non-dict would raise. -/
def jget (j : Json) (k : String) : Json :=
  match j with
  | .obj fields =>
    match fields.lookup k with
    | some v => v
    | none => .null
  | _ => .null

/-- Models `event.get(k, dflt)`. -/
def jgetD (j : Json) (k : String) (dflt : Json) : Json :=
  match j with
  | .obj fields =>
    match fields.lookup k with
    | some v => v
    | none => dflt
  | _ => dflt

/-- Python's short-circuiting `a or b` on decoded values. -/
def pyOr (a b : Json) : Json := if a.truthy then a else b

/-- The Python exceptions the decode path can raise. -/
inductive PyErr where
  | valueError
  | typeError
  | attributeError
deriving DecidableEq, Repr

/-- Numeric value of a digit string (most significant first). -/
def digitsVal (cs : List Char) : ℕ :=
  cs.foldl (fun acc c => 10 * acc + (c.toNat - Char.toNat '0')) 0

/-- Unsigned decimal mantissa: `digits`, `digits.digits`, `digits.`, or
`.digits`. -/
def parseUnsigned (cs : List Char) : Option ℚ :=
  let intPart := cs.takeWhile Char.isDigit
  let rest := cs.dropWhile Char.isDigit
  match rest with
  | [] => if intPart.isEmpty then none else some (digitsVal intPart)
  | '.' :: frac =>
    if frac.all Char.isDigit && !(intPart.isEmpty && frac.isEmpty) then
      some ((digitsVal intPart : ℚ) + (digitsVal frac : ℚ) / (10 ^ frac.length : ℚ))
    else none
  | _ => none

/-- Signed decimal mantissa. -/
def parseSigned (cs : List Char) : Option ℚ :=
  match cs with
  | '+' :: rest => parseUnsigned rest
  | '-' :: rest => (parseUnsigned rest).map Neg.neg
  | rest => parseUnsigned rest

/-- Signed integer exponent. -/
def parseExp (cs : List Char) : Option ℤ :=
  match cs with
  | '+' :: ds => if !ds.isEmpty && ds.all Char.isDigit then some (digitsVal ds) else none
  | '-' :: ds => if !ds.isEmpty && ds.all Char.isDigit then some (-(digitsVal ds : ℤ)) else none
  | ds => if !ds.isEmpty && ds.all Char.isDigit then some (digitsVal ds) else none

/-- The decimal core of CPython's `float(str)` grammar: optional surrounding
whitespace, sign, digits with optional fraction, optional `e`/`E` exponent.
(`inf`/`nan` — not representable in `ℚ` — and digit-group underscores are
not modelled; no claim depends on them.) -/
def parseFloatStr (s : String) : Option ℚ :=
  let cs := s.trim.toList
  let mant := cs.takeWhile (fun c => c != 'e' && c != 'E')
  match cs.dropWhile (fun c => c != 'e' && c != 'E') with
  | [] => parseSigned mant
  | _ :: expPart =>
    match parseSigned mant, parseExp expPart with
    | some m, some e => some (m * (10 : ℚ) ^ e)
    | _, _ => none

/-- Python's `float(x)` on a decoded JSON value: numbers pass through, bools
coerce, strings are parsed (`ValueError` on failure), everything else raises
`TypeError`. -/
def pyFloat : Json → Except PyErr ℚ
  | .num q => .ok q
  | .str s =>
    match parseFloatStr s with
    | some q => .ok q
    | none => .error .valueError
  | .bool b => .ok (if b then 1 else 0)
  | .null => .error .typeError
  | .arr _ => .error .typeError
  | .obj _ => .error .typeError

/-- Python's `round` ties-to-even on `ℚ`. -/
def round_half_even (x : ℚ) : ℤ :=
  if x - ⌊x⌋ < 1/2 then ⌊x⌋
  else if x - ⌊x⌋ > 1/2 then ⌊x⌋ + 1
  else if ⌊x⌋ % 2 = 0 then ⌊x⌋ else ⌊x⌋ + 1

/-- Python's `round(x, 2)`. -/
def round2 (x : ℚ) : ℚ := (round_half_even (x * 100) : ℚ) / 100

/-- Config `MIN_TRADE_USD = 5.0` — filter noise below this. -/
def MIN_TRADE_USD : ℚ := 5

/-- Config `TOP_N_MARKETS = 20` — how many markets to track. -/
def TOP_N_MARKETS : ℕ := 20

/-- Source `score_trade(usd_value, price)`: score a trade and generate alert text
based on size + position (source lines 117-141).  The size tier is an
`if`/`elif` chain (first match wins), then an independent `if`/`elif` price
chain adds a modifier; the score is `round(·, 2)` and the reasons are joined
with `" | "`, defaulting to `"Standard trade"` when none fired. -/
def score_trade (usd_value price : ℚ) : ℚ × String :=
  let base : ℚ × List String :=
    if usd_value ≥ 10000 then (5, ["🐳 WHALE (>$10k)"])
    else if usd_value ≥ 2000 then (3, ["🦈 Large trade (>$2k)"])
    else if usd_value ≥ 500 then (1.5, ["📊 Mid trade (>$500)"])
    else (0.5, [])
  let final : ℚ × List String :=
    if price ≥ 0.85 then (base.1 + 2, base.2 ++ ["🔥 Late-stage sniper (price ≥85¢)"])
    else if price ≤ 0.15 then (base.1 + 1.5, base.2 ++ ["💎 Low-prob contrarian (price ≤15¢)"])
    else base
  (round2 final.1,
   if final.2.isEmpty then "Standard trade" else String.intercalate " | " final.2)

/-- One row of the `trades` table (the autoincrement `id` is positional:
a row's `id` is its index in the append-only store). -/
structure Trade where
  timestamp : String
  market_id : String
  market_name : String
  outcome : String
  price : ℚ
  size : ℚ
  usd_value : ℚ
  side : Json
  score : ℚ
  alert : String

/-- Extraction `etype = event.get("event_type") or event.get("type", "")`. -/
def etypeOf (e : Json) : Json := pyOr (jget e "event_type") (jgetD e "type" (.str ""))

/-- Test `etype in ("price_change", "last_trade_price", "trade")`: only the three
string values compare equal to a tuple member. -/
def isTriggerType : Json → Bool
  | .str s => s == "price_change" || s == "last_trade_price" || s == "trade"
  | _ => false

/-- Extraction `market_id = event.get("asset_id") or event.get("market", "")`. -/
def marketIdField (e : Json) : Json := pyOr (jget e "asset_id") (jgetD e "market" (.str ""))

/-- Extraction `event.get("price") or event.get("last_trade_price") or 0`. -/
def priceField (e : Json) : Json := pyOr (jget e "price") (pyOr (jget e "last_trade_price") (.num 0))

/-- Extraction `event.get("size") or event.get("amount") or 0`. -/
def sizeField (e : Json) : Json := pyOr (jget e "size") (pyOr (jget e "amount") (.num 0))

/-- Processing of one decoded event by the receive loop body (source lines
170-198): classify by event type, extract `price`/`size` via `float`,
filter `usd_value < MIN_TRADE_USD or price <= 0`, resolve the market name
via the in-memory name map (default `market_id[:16]`; every non-string
`market_id` raises `TypeError`, either from the slice or from the unhashable
dict key), score, and build the row for `insert_trade`.  `.ok none` is a
`continue` with no insert; `.error` is an exception escaping the loop body. -/
def processEvent (nm : List (String × String)) (now : String) (event : Json) :
    Except PyErr (Option Trade) :=
  match event with
  | .obj _ =>
    if isTriggerType (etypeOf event) then
      match pyFloat (priceField event) with
      | .error e => .error e
      | .ok price =>
        match pyFloat (sizeField event) with
        | .error e => .error e
        | .ok size =>
          let usd_value := price * size
          if usd_value < MIN_TRADE_USD ∨ price ≤ 0 then .ok none
          else
            match marketIdField event with
            | .str mid =>
              let market_name := (nm.lookup mid).getD (mid.take 16)
              let sa := score_trade usd_value price
              .ok (some {
                timestamp := now
                market_id := mid
                market_name := market_name
                outcome := if price > 0.5 then "YES" else "NO"
                price := price
                size := size
                usd_value := round2 usd_value
                side := jgetD event "side" (.str "UNKNOWN")
                score := sa.1
                alert := sa.2 })
            | _ => .error .typeError
    else .ok none
  | _ => .error .attributeError

/-- Normalization `if not isinstance(events, list): events = [events]`. -/
def toEvents : Json → List Json
  | .arr l => l
  | j => [j]

/-- Store operation `insert_trade`: append-only insert into the `trades` table, committed
per call. -/
def insert_trade (store : List Trade) (t : Trade) : List Trade := store ++ [t]

/-- Sequential processing of the (normalized) event list of one message.
Each accepted trade is committed immediately, so an exception part-way
keeps the earlier inserts; the second component is the escaping exception,
if any. -/
def processEvents (nm : List (String × String)) (now : String) :
    List Json → List Trade → List Trade × Option PyErr
  | [], store => (store, none)
  | e :: rest, store =>
    match processEvent nm now e with
    | .error err => (store, some err)
    | .ok none => processEvents nm now rest store
    | .ok (some t) => processEvents nm now rest (insert_trade store t)

/-- Which exceptions the per-message handler
`except (json.JSONDecodeError, ValueError, KeyError)` absorbs.
(`JSONDecodeError` is the `Frame.badJson` case; `dict.get` never raises
`KeyError`; `TypeError` / `AttributeError` escape.) -/
def caughtByHandler : PyErr → Bool
  | .valueError => true
  | .typeError => false
  | .attributeError => false

/-- One inbound WebSocket frame, classified the only way the loop consumes
it: the literal keepalive text `"ping"`, a text whose `json.loads` fails,
or a text decoding to a JSON value. -/
inductive Frame where
  | ping
  | badJson (s : String)
  | payload (j : Json)

/-- One iteration of `async for raw in ws` (source lines 159-206): answer
the keepalive, otherwise decode and process, catching per-message errors.
Result: updated store, outbound messages, and whether the receive loop
survives to the next frame (`false` = an uncaught exception unwinds it). -/
def processFrame (nm : List (String × String)) (now : String) (f : Frame)
    (store : List Trade) : List Trade × List String × Bool :=
  match f with
  | .ping => (store, ["pong"], true)
  | .badJson _ => (store, [], true)
  | .payload j =>
    match processEvents nm now (toEvents j) store with
    | (store', none) => (store', [], true)
    | (store', some err) => (store', [], caughtByHandler err)

/-- The receive loop over a finite prefix of the frame stream: processes
frames in order until one raises an uncaught exception. -/
def runFrames (nm : List (String × String)) (now : String) :
    List Frame → List Trade → List Trade × Bool
  | [], store => (store, true)
  | f :: rest, store =>
    match processFrame nm now f store with
    | (store', _, true) => runFrames nm now rest store'
    | (store', _, false) => (store', false)

/-- Loop `for token in m.get("clobTokenIds", [])` — Python's iteration protocol
on the decoded field value: a list yields its elements, a string yields its
characters (one-character strings), a dict yields its keys; `None`, numbers
and bools are not iterable (`TypeError`). -/
def iterTokens : Json → Except PyErr (List Json)
  | .arr l => .ok l
  | .str s => .ok (s.toList.map fun c => .str c.toString)
  | .obj fields => .ok (fields.map fun p => .str p.1)
  | _ => .error .typeError

/-- Whether a decoded value can key a Python dict (lists/dicts are
unhashable). -/
def hashableKey : Json → Bool
  | .arr _ => false
  | .obj _ => false
  | _ => true

/-- Python `==` on the hashable decoded values (numbers and bools compare
numerically). -/
def keyEq : Json → Json → Bool
  | .null, .null => true
  | .bool a, .bool b => a == b
  | .bool a, .num q => (if a then (1:ℚ) else 0) == q
  | .num q, .bool b => q == (if b then (1:ℚ) else 0)
  | .num a, .num b => a == b
  | .str a, .str b => a == b
  | _, _ => false

/-- Python dict assignment `d[k] = v`: update in place (keeping insertion
order and the original key object) or append. -/
def dictInsert (m : List (Json × Json)) (k v : Json) : List (Json × Json) :=
  if m.any (fun p => keyEq p.1 k) then
    m.map (fun p => if keyEq p.1 k then (p.1, v) else p)
  else m ++ [(k, v)]

/-- The body of the token loop (source lines 108-111) over one market's
token iterator: `token_ids.append(token)`, `name_map[token] = question`
(`TypeError` on an unhashable token), then `upsert_market` whose
`question[:80]` argument raises `TypeError` when `question` is not a string.
The `markets`-table side effect of the upsert is modelled by
`upsert_market` below. -/
def registerToks (question : Json) :
    List Json → List Json × List (Json × Json) → Except PyErr (List Json × List (Json × Json))
  | [], acc => .ok acc
  | t :: ts, acc =>
    if hashableKey t then
      match question with
      | .str _ => registerToks question ts (acc.1 ++ [t], dictInsert acc.2 t question)
      | _ => .error .typeError
    else .error .typeError

/-- Processing of one market object in `fetch_top_markets` (source lines
105-111): read `question` (default `"Unknown Market"`), coerce the volume
with `float` (its exceptions abort the whole pass), then iterate the
`clobTokenIds` field (default `[]`). -/
def marketStep (acc : List Json × List (Json × Json)) (m : Json) :
    Except PyErr (List Json × List (Json × Json)) :=
  match m with
  | .obj _ =>
    let question := jgetD m "question" (.str "Unknown Market")
    match pyFloat (pyOr (jget m "volume24hr") (pyOr (jget m "volume") (.num 0))) with
    | .error e => .error e
    | .ok _ =>
      match iterTokens (jgetD m "clobTokenIds" (.arr [])) with
      | .error e => .error e
      | .ok toks => registerToks question toks acc
  | _ => .error .attributeError

def discoverGo : List Json → List Json × List (Json × Json) →
    Except PyErr (List Json × List (Json × Json))
  | [], acc => .ok acc
  | m :: ms, acc =>
    match marketStep acc m with
    | .error e => .error e
    | .ok acc' => discoverGo ms acc'

/-- The market loop of `fetch_top_markets`: fold over the first
`TOP_N_MARKETS` response objects, building the subscription list and the
name map; any exception aborts the whole pass (there is no handler in
`fetch_top_markets`). -/
def discoverMarkets (markets : List Json) : Except PyErr (List Json × List (Json × Json)) :=
  discoverGo (markets.take TOP_N_MARKETS) ([], [])

/-- One row of the `markets` table. -/
structure MarketRow where
  name : String
  question : String
  volume_24h : ℚ
  last_seen : String

/-- Store operation `upsert_market` (source lines 74-85): `INSERT ... ON CONFLICT(token_id)
DO UPDATE SET name=excluded.name, volume_24h=excluded.volume_24h,
last_seen=excluded.last_seen` — on conflict, `question` is not in the
update list and keeps its stored value. -/
def upsert_market (tbl : List (String × MarketRow)) (token_id name question : String)
    (volume : ℚ) (now : String) : List (String × MarketRow) :=
  if (tbl.lookup token_id).isSome then
    tbl.map (fun p =>
      if p.1 == token_id then
        (p.1, { name := name, question := p.2.question, volume_24h := volume, last_seen := now })
      else p)
  else
    tbl ++ [(token_id, { name := name, question := question, volume_24h := volume, last_seen := now })]

/-- The row a loop-body outcome handed to `insert_trade`, if any. -/
def insertedRow : Except PyErr (Option Trade) → Option Trade
  | .ok o => o
  | .error _ => none

/-- The malformed inbound messages named by the resilience requirement:
a text frame whose JSON parse fails; a decoded object with no recognized
(or a missing) event-type field; a recognized event whose price or size
field is a non-numeric text (`float` raises `ValueError`); or a recognized
event whose (possibly defaulted-to-0) numerics fall to the noise filter. -/
def MalformedMsg (f : Frame) : Prop :=
  (∃ s, f = Frame.badJson s)
  ∨ (∃ fs, f = Frame.payload (Json.obj fs)
      ∧ isTriggerType (etypeOf (Json.obj fs)) = false)
  ∨ (∃ fs, f = Frame.payload (Json.obj fs)
      ∧ isTriggerType (etypeOf (Json.obj fs)) = true
      ∧ pyFloat (priceField (Json.obj fs)) = Except.error PyErr.valueError)
  ∨ (∃ fs p, f = Frame.payload (Json.obj fs)
      ∧ isTriggerType (etypeOf (Json.obj fs)) = true
      ∧ pyFloat (priceField (Json.obj fs)) = Except.ok p
      ∧ pyFloat (sizeField (Json.obj fs)) = Except.error PyErr.valueError)
  ∨ (∃ fs p sz, f = Frame.payload (Json.obj fs)
      ∧ isTriggerType (etypeOf (Json.obj fs)) = true
      ∧ pyFloat (priceField (Json.obj fs)) = Except.ok p
      ∧ pyFloat (sizeField (Json.obj fs)) = Except.ok sz
      ∧ (p * sz < MIN_TRADE_USD ∨ p ≤ 0))

/-- The end-to-end scenario event of the spec:
`\x7btype:"trade", asset_id:"T1", price:0.90, size:12000, side:"BUY"\x7d`. -/
def evScenario : Json := Json.obj
  [("type", Json.str "trade"), ("asset_id", Json.str "T1"),
   ("price", Json.num (mkRat 9 10)), ("size", Json.num 12000), ("side", Json.str "BUY")]

/-- A name map resolving the scenario's asset id. -/
def nmScenario : List (String × String) := [("T1", "Market T1")]

/-- The row the loop body builds for `evScenario`. -/
def tScenario : Trade :=
  { timestamp := "t0", market_id := "T1", market_name := "Market T1",
    outcome := "YES", price := 0.9, size := 12000, usd_value := 10800,
    side := Json.str "BUY", score := 7,
    alert := "🐳 WHALE (>$10k) | 🔥 Late-stage sniper (price ≥85¢)" }

/-- Name map for the malformed-stream scenario. -/
def nmW : List (String × String) := [("A1", "Alpha market"), ("B1", "Beta market")]

/-- First valid trade event of the malformed-stream scenario. -/
def evA : Json := Json.obj
  [("type", Json.str "trade"), ("asset_id", Json.str "A1"),
   ("price", Json.num (mkRat 1 2)), ("size", Json.num 100), ("side", Json.str "BUY")]

/-- Second valid trade event of the malformed-stream scenario. -/
def evB : Json := Json.obj
  [("type", Json.str "trade"), ("asset_id", Json.str "B1"),
   ("price", Json.num (mkRat 9 10)), ("size", Json.num 1000), ("side", Json.str "BUY")]

/-- The row built for `evA` (usd 50, no tier label, price between cutoffs). -/
def tA : Trade :=
  { timestamp := "t0", market_id := "A1", market_name := "Alpha market",
    outcome := "NO", price := 0.5, size := 100, usd_value := 50,
    side := Json.str "BUY", score := 0.5, alert := "Standard trade" }

/-- The row built for `evB` (usd 900: Mid tier + late-stage sniper). -/
def tB : Trade :=
  { timestamp := "t0", market_id := "B1", market_name := "Beta market",
    outcome := "YES", price := 0.9, size := 1000, usd_value := 900,
    side := Json.str "BUY", score := 3.5,
    alert := "📊 Mid trade (>$500) | 🔥 Late-stage sniper (price ≥85¢)" }

/-- A market object of the listing response with the given token-list
field value. -/
def mkMarket (v : Json) : Json := Json.obj
  [("question", Json.str "Q"), ("volume24hr", Json.num 1), ("clobTokenIds", v)]

/-- A market object with no token-list field at all. -/
def mkMarketNoToks : Json := Json.obj
  [("question", Json.str "Q"), ("volume24hr", Json.num 1)]

/-- A recognized trade event whose `price` field is a (non-empty) JSON
array — a non-numeric field on which `float` raises `TypeError`, an
exception the per-message handler does not catch. -/
def evBadPrice : Json := Json.obj
  [("type", Json.str "trade"), ("price", Json.arr [Json.num 1]),
   ("size", Json.num 1)]

/-- A pre-existing `markets` row for the upsert scenarios. -/
def rowW : MarketRow :=
  { name := "old name", question := "orig question", volume_24h := 1, last_seen := "d0" }

/-! ## Helper lemmas about the rounding model -/

lemma round_half_even_intCast (n : ℤ) : round_half_even (n : ℚ) = n := by
  unfold round_half_even
  rw [Int.floor_intCast]
  norm_num

/-- Rounding to two decimals fixes every rational with at most two decimal places. -/
lemma round2_self_of (x : ℚ) (n : ℤ) (h : x * 100 = n) : round2 x = x := by
  unfold round2
  rw [h, round_half_even_intCast, ← h]
  ring

lemma floor_le_round_half_even (x : ℚ) : ⌊x⌋ ≤ round_half_even x := by
  unfold round_half_even
  split_ifs <;> omega

/-- Rounding to two decimals cannot cross an integer bound downwards. -/
lemma le_round2 (x : ℚ) (n : ℤ) (h : (n : ℚ) ≤ x) : (n : ℚ) ≤ round2 x := by
  unfold round2
  have h1 : ((100 * n : ℤ) : ℚ) ≤ x * 100 := by push_cast; linarith
  have h2 : (100 * n : ℤ) ≤ round_half_even (x * 100) :=
    le_trans (Int.le_floor.mpr h1) (floor_le_round_half_even _)
  have h3 : ((100 * n : ℤ) : ℚ) ≤ (round_half_even (x * 100) : ℚ) := by exact_mod_cast h2
  rw [le_div_iff₀ (by norm_num : (0:ℚ) < 100)]
  push_cast at h3
  linarith

/-! ## Helper lemmas about the ingestion path -/

/-- Every row `processEvent` hands to `insert_trade` satisfies the data
invariant: the stored (rounded) notional is at least `MIN_TRADE_USD` and
the stored price is positive. -/
lemma processEvent_ok_bounds (nm : List (String × String)) (now : String) (e : Json)
    (t : Trade) (h : processEvent nm now e = Except.ok (some t)) :
    MIN_TRADE_USD ≤ t.usd_value ∧ 0 < t.price := by
  cases e with
  | obj fs =>
    simp only [processEvent] at h
    split at h
    · split at h
      · simp at h
      · rename_i price hprice
        split at h
        · simp at h
        · rename_i size hsize
          split at h
          · simp at h
          · rename_i hfilter
            split at h
            · rename_i mid hmid
              simp only [Except.ok.injEq, Option.some.injEq] at h
              push_neg at hfilter
              subst h
              refine ⟨?_, hfilter.2⟩
              have h5 : ((5:ℤ):ℚ) ≤ price * size := by exact_mod_cast hfilter.1
              have := le_round2 (price * size) 5 h5
              simpa [MIN_TRADE_USD] using this
            · simp at h
    · simp at h
  | null => simp [processEvent] at h
  | bool b => simp [processEvent] at h
  | num q => simp [processEvent] at h
  | str s => simp [processEvent] at h
  | arr l => simp [processEvent] at h

/-- The trades accumulated by `processEvents` extend the input store. -/
lemma processEvents_inv (nm : List (String × String)) (now : String)
    (P : Trade → Prop) (evs : List Json) (store : List Trade)
    (hstore : ∀ t ∈ store, P t)
    (hnew : ∀ e t, processEvent nm now e = Except.ok (some t) → P t) :
    ∀ t ∈ (processEvents nm now evs store).1, P t := by
  induction evs generalizing store with
  | nil => simpa [processEvents] using hstore
  | cons e rest ih =>
    simp only [processEvents]
    split
    · rename_i err heq
      simpa using hstore
    · rename_i heq
      exact ih store hstore
    · rename_i t heq
      refine ih _ (fun u hu => ?_)
      rcases (by simpa [insert_trade] using hu : u ∈ store ∨ u = t) with h | rfl
      · exact hstore u h
      · exact hnew e u heq

/-- The store only ever grows by rows that `processEvent` accepted. -/
lemma processFrame_inv (nm : List (String × String)) (now : String)
    (P : Trade → Prop) (f : Frame) (store : List Trade)
    (hstore : ∀ t ∈ store, P t)
    (hnew : ∀ e t, processEvent nm now e = Except.ok (some t) → P t) :
    ∀ t ∈ (processFrame nm now f store).1, P t := by
  cases f with
  | ping => simpa [processFrame] using hstore
  | badJson s => simpa [processFrame] using hstore
  | payload j =>
    simp only [processFrame]
    split <;> rename_i heq
    · intro t ht
      have := processEvents_inv nm now P (toEvents j) store hstore hnew
      rw [heq] at this
      exact this t ht
    · intro t ht
      have := processEvents_inv nm now P (toEvents j) store hstore hnew
      rw [heq] at this
      exact this t ht

lemma runFrames_inv (nm : List (String × String)) (now : String)
    (P : Trade → Prop) (frames : List Frame) (store : List Trade)
    (hstore : ∀ t ∈ store, P t)
    (hnew : ∀ e t, processEvent nm now e = Except.ok (some t) → P t) :
    ∀ t ∈ (runFrames nm now frames store).1, P t := by
  induction frames generalizing store with
  | nil => simpa [runFrames] using hstore
  | cons f rest ih =>
    simp only [runFrames]
    split <;> rename_i store' out heq
    · refine ih store' (fun u hu => ?_)
      have := processFrame_inv nm now P f store hstore hnew
      rw [heq] at this
      exact this u hu
    · intro t ht
      have := processFrame_inv nm now P f store hstore hnew
      rw [heq] at this
      exact this t ht

/-! ## C1 — the persistence filter invariant -/

/-- C1: the ingestor persists a row only when the computed notional is at
least `MIN_TRADE_USD` and the price is positive: (i) every row accepted by
the loop body satisfies both bounds (on the stored, rounded `usd_value`);
(ii) an event whose extracted price and size put it below either bound is
never inserted; (iii) consequently every row in the store after any run of
the receive loop satisfies both bounds. -/
theorem trades_filter_invariant (nm : List (String × String)) (now : String) :
    (∀ e t, processEvent nm now e = Except.ok (some t) →
        MIN_TRADE_USD ≤ t.usd_value ∧ 0 < t.price)
    ∧ (∀ e p sz, pyFloat (priceField e) = Except.ok p →
        pyFloat (sizeField e) = Except.ok sz → (p * sz < MIN_TRADE_USD ∨ p ≤ 0) →
        ∀ t, processEvent nm now e ≠ Except.ok (some t))
    ∧ (∀ frames t, t ∈ (runFrames nm now frames []).1 →
        MIN_TRADE_USD ≤ t.usd_value ∧ 0 < t.price) := by
  refine ⟨fun e t h => processEvent_ok_bounds nm now e t h, ?_, ?_⟩
  · intro e p sz hp hsz hbad t h
    cases e with
    | obj fs =>
      simp only [processEvent] at h
      split at h
      · split at h
        · simp at h
        · rename_i price hprice
          split at h
          · simp at h
          · rename_i size hsize
            rw [hp] at hprice
            rw [hsz] at hsize
            simp only [Except.ok.injEq] at hprice hsize
            subst hprice; subst hsize
            split at h
            · simp at h
            · rename_i hfilter
              exact hfilter hbad
      · simp at h
    | null => simp [processEvent] at h
    | bool b => simp [processEvent] at h
    | num q => simp [processEvent] at h
    | str s => simp [processEvent] at h
    | arr l => simp [processEvent] at h
  · intro frames t ht
    exact runFrames_inv nm now _ frames [] (by simp)
      (fun e u hu => processEvent_ok_bounds nm now e u hu) t ht

lemma mkRat_eq_div' (n : ℤ) (d : ℕ) : mkRat n d = (n : ℚ) / (d : ℚ) := by
  rw [Rat.mkRat_eq_divInt, Rat.divInt_eq_div]
  norm_cast

/-- The accepting path of the loop body, with each extraction step as an
explicit hypothesis. -/
lemma processEvent_obj_ok (nm : List (String × String)) (now : String)
    (fs : List (String × Json)) (p sz : ℚ) (mid : String)
    (he : isTriggerType (etypeOf (Json.obj fs)) = true)
    (hp : pyFloat (priceField (Json.obj fs)) = Except.ok p)
    (hs : pyFloat (sizeField (Json.obj fs)) = Except.ok sz)
    (hf : ¬ (p * sz < MIN_TRADE_USD ∨ p ≤ 0))
    (hm : marketIdField (Json.obj fs) = Json.str mid) :
    processEvent nm now (Json.obj fs) = Except.ok (some {
      timestamp := now, market_id := mid,
      market_name := (nm.lookup mid).getD (mid.take 16),
      outcome := if p > 0.5 then "YES" else "NO",
      price := p, size := sz, usd_value := round2 (p * sz),
      side := jgetD (Json.obj fs) "side" (Json.str "UNKNOWN"),
      score := (score_trade (p * sz) p).1,
      alert := (score_trade (p * sz) p).2 }) := by
  simp only [processEvent, he, hp, hs, hm, if_true]
  rw [if_neg hf]

/-- Evaluation of the loop body on the spec's end-to-end scenario event. -/
lemma processEvent_scenario :
    processEvent nmScenario "t0" evScenario = Except.ok (some tScenario) := by
  have h9 : (mkRat 9 10 : ℚ) = 0.9 := by rw [mkRat_eq_div']; norm_num
  have husd : (mkRat 9 10 : ℚ) * 12000 = 10800 := by rw [h9]; norm_num
  have hstep := processEvent_obj_ok nmScenario "t0"
    [("type", Json.str "trade"), ("asset_id", Json.str "T1"),
     ("price", Json.num (mkRat 9 10)), ("size", Json.num 12000),
     ("side", Json.str "BUY")]
    (mkRat 9 10) 12000 "T1" rfl rfl rfl (by rw [h9]; norm_num [MIN_TRADE_USD]) rfl
  rw [show evScenario = Json.obj
    [("type", Json.str "trade"), ("asset_id", Json.str "T1"),
     ("price", Json.num (mkRat 9 10)), ("size", Json.num 12000),
     ("side", Json.str "BUY")] from rfl, hstep]
  have hscore : score_trade (mkRat 9 10 * 12000) (mkRat 9 10) =
      (7, "🐳 WHALE (>$10k) | 🔥 Late-stage sniper (price ≥85¢)") := by
    rw [husd]
    simp only [score_trade, if_pos (show (10800:ℚ) ≥ 10000 by norm_num),
      if_pos (show (mkRat 9 10 : ℚ) ≥ 0.85 by rw [h9]; norm_num)]
    rw [show (5:ℚ) + 2 = 7 from by norm_num]
    exact Prod.ext (round2_self_of 7 700 (by norm_num)) rfl
  rw [hscore, if_pos (show (mkRat 9 10 : ℚ) > 0.5 by rw [h9]; norm_num), husd,
    round2_self_of 10800 1080000 (by norm_num), h9]
  rfl

theorem trades_filter_invariant_witness :
    MIN_TRADE_USD ≤ tScenario.usd_value ∧ 0 < tScenario.price :=
  (trades_filter_invariant nmScenario "t0").1 evScenario tScenario processEvent_scenario

/-! ## C3 — the end-to-end scenario -/

/-- C3 counterexample: the scenario event is persisted with score 7, not
the claimed 6 (the implemented whale tier contributes 5.0, not 4.0). -/
theorem scenario_score_cex :
    (insertedRow (processEvent nmScenario "t0" evScenario)).map Trade.score = some 7
    ∧ (7 : ℚ) ≠ 6 := by
  rw [processEvent_scenario]
  exact ⟨rfl, by norm_num⟩

/-- C3 (amended): the scenario event
`\x7btype:"trade", asset_id:"T1", price:0.90, size:12000, side:"BUY"\x7d`
is persisted with `usd_value = 10800.00`, `outcome = "YES"`,
`score = 7.0` (5.0 whale tier + 2.0 late-sniper), and an alert that is the
two reason labels joined — so it contains both. -/
theorem scenario_trade_result :
    processEvent nmScenario "t0" evScenario = Except.ok (some tScenario)
    ∧ tScenario.usd_value = 10800
    ∧ tScenario.outcome = "YES"
    ∧ tScenario.score = 5 + 2
    ∧ tScenario.alert = "🐳 WHALE (>$10k)" ++ " | " ++ "🔥 Late-stage sniper (price ≥85¢)" := by
  refine ⟨processEvent_scenario, rfl, rfl, by norm_num [tScenario], rfl⟩

/-! ## C7 — the keepalive probe -/

/-- C7 counterexample: on the venue's bare `"ping"` text the loop replies
with the text `"pong"`, which is not the received probe echoed verbatim. -/
theorem keepalive_echo_cex :
    processFrame [] "t0" Frame.ping [] = ([], ["pong"], true) ∧ "pong" ≠ "ping" :=
  ⟨rfl, by decide⟩

/-- C7 (amended): on the venue's bare keepalive probe the ingestor replies
with the fixed text `"pong"` (answering in kind rather than echoing) and
does no further processing of that message: the store is unchanged — no
trade is persisted — and the loop proceeds to the next frame. -/
theorem keepalive_pong_reply (nm : List (String × String)) (now : String)
    (store : List Trade) :
    processFrame nm now Frame.ping store = (store, ["pong"], true) := rfl

/-! ## C2 — the size-tier table -/

/-- C2 counterexample: the claimed table says `usd = 2000` hits a 2.5 tier
(and a 4.0 WHALE tier at 10000, with a MEGA WHALE tier at 25000); the
implemented scorer gives base 3.0 at `usd = 2000`. -/
theorem size_tier_spec_cex :
    (score_trade 2000 (1/2)).1 = 3 ∧ (3 : ℚ) ≠ 5/2 := by
  constructor
  · norm_num [score_trade, round2, round_half_even]
  · norm_num

/-- C2 (amended): the size tier, checked in descending order with first
match winning, assigns base 5.0 (WHALE) for `usd_value ≥ 10000`, 3.0
(Large trade) for `usd_value ≥ 2000`, 1.5 (Mid trade) for
`usd_value ≥ 500`, and 0.5 with no size label otherwise; there is no
MEGA WHALE tier.  Stated at any price in the modifier-free band so the
returned score is exactly the base. -/
theorem size_tier_table (usd p : ℚ) (hp1 : 0.15 < p) (hp2 : p < 0.85) :
    (10000 ≤ usd → score_trade usd p = (5, "🐳 WHALE (>$10k)"))
    ∧ (2000 ≤ usd → usd < 10000 → score_trade usd p = (3, "🦈 Large trade (>$2k)"))
    ∧ (500 ≤ usd → usd < 2000 → score_trade usd p = (1.5, "📊 Mid trade (>$500)"))
    ∧ (usd < 500 → score_trade usd p = (0.5, "Standard trade")) := by
  have hnp1 : ¬ p ≥ 0.85 := by linarith
  have hnp2 : ¬ p ≤ 0.15 := by linarith
  refine ⟨fun h1 => ?_, fun h1 h2 => ?_, fun h1 h2 => ?_, fun h1 => ?_⟩
  · simp only [score_trade, if_pos (show usd ≥ 10000 by linarith), if_neg hnp1, if_neg hnp2]
    exact Prod.ext (round2_self_of 5 500 (by norm_num)) rfl
  · simp only [score_trade, if_neg (show ¬ usd ≥ 10000 by linarith),
      if_pos (show usd ≥ 2000 by linarith), if_neg hnp1, if_neg hnp2]
    exact Prod.ext (round2_self_of 3 300 (by norm_num)) rfl
  · simp only [score_trade, if_neg (show ¬ usd ≥ 10000 by linarith),
      if_neg (show ¬ usd ≥ 2000 by linarith),
      if_pos (show usd ≥ 500 by linarith), if_neg hnp1, if_neg hnp2]
    exact Prod.ext (round2_self_of 1.5 150 (by norm_num)) rfl
  · simp only [score_trade, if_neg (show ¬ usd ≥ 10000 by linarith),
      if_neg (show ¬ usd ≥ 2000 by linarith),
      if_neg (show ¬ usd ≥ 500 by linarith), if_neg hnp1, if_neg hnp2]
    exact Prod.ext (round2_self_of 0.5 50 (by norm_num)) rfl

theorem size_tier_table_witness :
    score_trade 2000 (1/2) = (3, "🦈 Large trade (>$2k)") :=
  (size_tier_table 2000 (1/2) (by norm_num) (by norm_num)).2.1 (le_refl _) (by norm_num)

/-! ## C4 — the price-modifier table -/

/-- C4 counterexample: the claim asserts a `+0.5` "Near 50/50" modifier for
`0.45 ≤ price ≤ 0.55`, so `score(100, 0.5)` would be `0.5 + 0.5 = 1` with a
Near 50/50 label; the implemented scorer has no such modifier and returns
`(0.5, "Standard trade")`. -/
theorem near_fifty_modifier_cex :
    score_trade 100 0.5 = (0.5, "Standard trade") ∧ (0.5 : ℚ) ≠ 0.5 + 0.5 := by
  constructor
  · have c1 : ¬ (0.5:ℚ) ≥ 0.85 := by norm_num
    have c2 : ¬ (0.5:ℚ) ≤ 0.15 := by norm_num
    simp only [score_trade, if_neg (show ¬ (100:ℚ) ≥ 10000 by norm_num),
      if_neg (show ¬ (100:ℚ) ≥ 2000 by norm_num),
      if_neg (show ¬ (100:ℚ) ≥ 500 by norm_num), if_neg c1, if_neg c2]
    exact Prod.ext (round2_self_of 0.5 50 (by norm_num)) rfl
  · norm_num

/-- C4 (amended): the scorer applies two mutually exclusive price modifiers
after the size tier — `+2.0` (Late-stage sniper) when `price ≥ 0.85`,
otherwise `+1.5` (Low-prob contrarian) when `price ≤ 0.15` — and nothing
else: any price strictly between the two cutoffs (in particular 0.5)
leaves score and label exactly at the size-tier output. -/
theorem price_modifier_table (usd p : ℚ) :
    (0.85 ≤ p → (score_trade usd p).1 = (score_trade usd 0.5).1 + 2)
    ∧ (p ≤ 0.15 → (score_trade usd p).1 = (score_trade usd 0.5).1 + 1.5)
    ∧ (0.15 < p → p < 0.85 → score_trade usd p = score_trade usd 0.5) := by
  have c1 : ¬ (0.5:ℚ) ≥ 0.85 := by norm_num
  have c2 : ¬ (0.5:ℚ) ≤ 0.15 := by norm_num
  refine ⟨fun h => ?_, fun h => ?_, fun h1 h2 => ?_⟩
  · simp only [score_trade, if_pos (show p ≥ 0.85 from h), if_neg c1, if_neg c2]
    split_ifs <;> norm_num [round2, round_half_even]
  · have hn : ¬ p ≥ 0.85 := by linarith
    simp only [score_trade, if_neg hn, if_pos (show p ≤ 0.15 from h), if_neg c1, if_neg c2]
    split_ifs <;> norm_num [round2, round_half_even]
  · simp only [score_trade, if_neg (show ¬ p ≥ 0.85 by linarith),
      if_neg (show ¬ p ≤ 0.15 by linarith), if_neg c1, if_neg c2]

theorem price_modifier_table_witness :
    (score_trade 100 0.9).1 = (score_trade 100 0.5).1 + 2 :=
  (price_modifier_table 100 0.9).1 (by norm_num)

/-! ## C5 — range of the scorer -/

/-- C5: the scorer is a total function of its two arguments (purity and
determinism are inherent in its being a Lean function of `usd_value` and
`price`, with the reason labels produced in a fixed evaluation order), and
on the claimed domain its numeric score lies in `[0.5, 7.0]`. -/
theorem score_trade_range (usd p : ℚ) (h0 : 0 ≤ usd) (h1 : 0 < p) (h2 : p ≤ 1) :
    0.5 ≤ (score_trade usd p).1 ∧ (score_trade usd p).1 ≤ 7 := by
  simp only [score_trade]
  split_ifs <;> norm_num [round2, round_half_even]

theorem score_trade_range_witness :
    0.5 ≤ (score_trade 100 1).1 ∧ (score_trade 100 1).1 ≤ 7 :=
  score_trade_range 100 1 (by norm_num) (by norm_num) (by norm_num)

/-! ## C10 — the Standard trade label -/

/-- C10: `score_trade` returns the label "Standard trade" exactly when no
reason fired: `usd_value < 500` and `0.15 < price < 0.85`; in particular
every trade of at least 500 USD gets a size label. -/
theorem standard_trade_label_iff (usd p : ℚ) :
    (score_trade usd p).2 = "Standard trade" ↔ (usd < 500 ∧ 0.15 < p ∧ p < 0.85) := by
  simp only [score_trade]
  split_ifs <;>
    first
      | (exact iff_of_true rfl ⟨by linarith, by linarith, by linarith⟩)
      | (exact iff_of_false (by decide) (fun hc => by
          rcases hc with ⟨hc1, hc2, hc3⟩; linarith))
      | simp_all

/-! ## C6 — malformed-message resilience -/

/-- An event the loop body accepts is a JSON object, so a message carrying
just it normalizes to the one-element list. -/
lemma processEvent_ok_toEvents (nm : List (String × String)) (now : String)
    (v : Json) (t : Trade) (h : processEvent nm now v = Except.ok (some t)) :
    toEvents v = [v] := by
  cases v with
  | obj fs => rfl
  | null => simp [processEvent] at h
  | bool b => simp [processEvent] at h
  | num q => simp [processEvent] at h
  | str s => simp [processEvent] at h
  | arr l => simp [processEvent] at h

/-- A malformed message leaves the store untouched, sends nothing, and the
receive loop survives it (its per-message failure, if any, is a caught
`ValueError`). -/
lemma malformed_frame_noop (nm : List (String × String)) (now : String)
    (f : Frame) (hm : MalformedMsg f) :
    ∀ s, processFrame nm now f s = (s, [], true) := by
  intro s
  rcases hm with ⟨b, rfl⟩ | ⟨fs, rfl, he⟩ | ⟨fs, rfl, he, hp⟩
    | ⟨fs, p, rfl, he, hp, hs⟩ | ⟨fs, p, sz, rfl, he, hp, hs, hf⟩
  · rfl
  · have hev : processEvent nm now (Json.obj fs) = Except.ok none := by
      simp [processEvent, he]
    simp [processFrame, toEvents, processEvents, hev]
  · have hev : processEvent nm now (Json.obj fs) = Except.error PyErr.valueError := by
      simp [processEvent, he, hp]
    simp [processFrame, toEvents, processEvents, hev, caughtByHandler]
  · have hev : processEvent nm now (Json.obj fs) = Except.error PyErr.valueError := by
      simp [processEvent, he, hp, hs]
    simp [processFrame, toEvents, processEvents, hev, caughtByHandler]
  · have hev : processEvent nm now (Json.obj fs) = Except.ok none := by
      simp only [processEvent, he, hp, hs, if_true]
      rw [if_pos hf]
    simp [processFrame, toEvents, processEvents, hev]

/-- C6 (amended): for the malformed messages the per-message handler does
cover — bad JSON, a missing or unrecognized event-type field, a
non-numeric *text* price or size (`ValueError`), or numerics that fall to
the noise filter — a stream of a valid trade event, one such message, and
a second valid trade event persists exactly the two valid trades in
order; the malformed message leaves the store unchanged and the receive
loop reaches the next frame. -/
theorem malformed_message_resilience (nm : List (String × String)) (now : String)
    (v1 v2 : Json) (t1 t2 : Trade) (m : Frame)
    (h1 : processEvent nm now v1 = Except.ok (some t1))
    (h2 : processEvent nm now v2 = Except.ok (some t2))
    (hm : MalformedMsg m) :
    runFrames nm now [Frame.payload v1, m, Frame.payload v2] [] = ([t1, t2], true)
    ∧ ∀ s, processFrame nm now m s = (s, [], true) := by
  have hnoop := malformed_frame_noop nm now m hm
  have f1 : processFrame nm now (Frame.payload v1) [] = ([t1], [], true) := by
    simp [processFrame, processEvent_ok_toEvents nm now v1 t1 h1,
      processEvents, h1, insert_trade]
  have f2 : processFrame nm now (Frame.payload v2) [t1] = ([t1, t2], [], true) := by
    simp [processFrame, processEvent_ok_toEvents nm now v2 t2 h2,
      processEvents, h2, insert_trade]
  refine ⟨?_, hnoop⟩
  simp [runFrames, f1, f2, hnoop [t1]]

/-- Evaluation of the loop body on the first witness event (usd 50,
price 0.5). -/
lemma processEvent_evA : processEvent nmW "t0" evA = Except.ok (some tA) := by
  have h5 : (mkRat 1 2 : ℚ) = 0.5 := by rw [mkRat_eq_div']; norm_num
  have husd : (mkRat 1 2 : ℚ) * 100 = 50 := by rw [h5]; norm_num
  have hstep := processEvent_obj_ok nmW "t0"
    [("type", Json.str "trade"), ("asset_id", Json.str "A1"),
     ("price", Json.num (mkRat 1 2)), ("size", Json.num 100),
     ("side", Json.str "BUY")]
    (mkRat 1 2) 100 "A1" rfl rfl rfl (by rw [h5]; norm_num [MIN_TRADE_USD]) rfl
  rw [show evA = Json.obj
    [("type", Json.str "trade"), ("asset_id", Json.str "A1"),
     ("price", Json.num (mkRat 1 2)), ("size", Json.num 100),
     ("side", Json.str "BUY")] from rfl, hstep]
  have hscore : score_trade (mkRat 1 2 * 100) (mkRat 1 2) = (0.5, "Standard trade") := by
    rw [husd]
    simp only [score_trade, if_neg (show ¬ (50:ℚ) ≥ 10000 by norm_num),
      if_neg (show ¬ (50:ℚ) ≥ 2000 by norm_num),
      if_neg (show ¬ (50:ℚ) ≥ 500 by norm_num),
      if_neg (show ¬ (mkRat 1 2 : ℚ) ≥ 0.85 by rw [h5]; norm_num),
      if_neg (show ¬ (mkRat 1 2 : ℚ) ≤ 0.15 by rw [h5]; norm_num)]
    exact Prod.ext (round2_self_of 0.5 50 (by norm_num)) rfl
  rw [hscore, if_neg (show ¬ (mkRat 1 2 : ℚ) > 0.5 by rw [h5]; norm_num), husd,
    round2_self_of 50 5000 (by norm_num), h5]
  rfl

/-- Evaluation of the loop body on the second witness event (usd 900,
price 0.9). -/
lemma processEvent_evB : processEvent nmW "t0" evB = Except.ok (some tB) := by
  have h9 : (mkRat 9 10 : ℚ) = 0.9 := by rw [mkRat_eq_div']; norm_num
  have husd : (mkRat 9 10 : ℚ) * 1000 = 900 := by rw [h9]; norm_num
  have hstep := processEvent_obj_ok nmW "t0"
    [("type", Json.str "trade"), ("asset_id", Json.str "B1"),
     ("price", Json.num (mkRat 9 10)), ("size", Json.num 1000),
     ("side", Json.str "BUY")]
    (mkRat 9 10) 1000 "B1" rfl rfl rfl (by rw [h9]; norm_num [MIN_TRADE_USD]) rfl
  rw [show evB = Json.obj
    [("type", Json.str "trade"), ("asset_id", Json.str "B1"),
     ("price", Json.num (mkRat 9 10)), ("size", Json.num 1000),
     ("side", Json.str "BUY")] from rfl, hstep]
  have hscore : score_trade (mkRat 9 10 * 1000) (mkRat 9 10) =
      (3.5, "📊 Mid trade (>$500) | 🔥 Late-stage sniper (price ≥85¢)") := by
    rw [husd]
    simp only [score_trade, if_neg (show ¬ (900:ℚ) ≥ 10000 by norm_num),
      if_neg (show ¬ (900:ℚ) ≥ 2000 by norm_num),
      if_pos (show (900:ℚ) ≥ 500 by norm_num),
      if_pos (show (mkRat 9 10 : ℚ) ≥ 0.85 by rw [h9]; norm_num)]
    rw [show (1.5:ℚ) + 2 = 3.5 from by norm_num]
    exact Prod.ext (round2_self_of 3.5 350 (by norm_num)) rfl
  rw [hscore, if_pos (show (mkRat 9 10 : ℚ) > 0.5 by rw [h9]; norm_num), husd,
    round2_self_of 900 90000 (by norm_num), h9]
  rfl

theorem malformed_message_resilience_witness :
    runFrames nmW "t0" [Frame.payload evA, Frame.badJson "not json", Frame.payload evB] []
      = ([tA, tB], true) :=
  (malformed_message_resilience nmW "t0" evA evB tA tB (Frame.badJson "not json")
    processEvent_evA processEvent_evB (Or.inl ⟨"not json", rfl⟩)).1

/-- C6 counterexample: an invalid payload between two valid trade events
whose non-numeric field is a JSON *array* (`float` raises `TypeError`,
which `except (json.JSONDecodeError, ValueError, KeyError)` does not
catch): only the first valid trade is persisted — not the two the claim
promises — and the receive loop is terminated rather than continuing to
the next message. -/
theorem array_price_stream_cex :
    runFrames nmW "t0"
        [Frame.payload evA, Frame.payload evBadPrice, Frame.payload evB] []
      = ([tA], false)
    ∧ ([tA] : List Trade).length ≠ 2 := by
  have hbad : processEvent nmW "t0" evBadPrice = Except.error PyErr.typeError := rfl
  have htoe : toEvents evBadPrice = [evBadPrice] := rfl
  have hpe1 : processEvents nmW "t0" [evA] [] = ([tA], none) := by
    rw [processEvents, processEvent_evA]; rfl
  have hpe2 : processEvents nmW "t0" [evBadPrice] [tA] = ([tA], some PyErr.typeError) := by
    rw [processEvents, hbad]
  have f1 : processFrame nmW "t0" (Frame.payload evA) [] = ([tA], [], true) := by
    show (match processEvents nmW "t0" (toEvents evA) [] with
      | (store', none) => (store', [], true)
      | (store', some err) => (store', [], caughtByHandler err)) = ([tA], [], true)
    rw [processEvent_ok_toEvents nmW "t0" evA tA processEvent_evA, hpe1]
  have f2 : processFrame nmW "t0" (Frame.payload evBadPrice) [tA] = ([tA], [], false) := by
    show (match processEvents nmW "t0" (toEvents evBadPrice) [tA] with
      | (store', none) => (store', [], true)
      | (store', some err) => (store', [], caughtByHandler err)) = ([tA], [], false)
    rw [htoe, hpe2]; rfl
  refine ⟨?_, by decide⟩
  simp only [runFrames, f1, f2]

/-! ## C8 — the two delivered token-list forms -/

/-- Over hashable tokens and a string question, the token loop appends
every token to the subscription list and succeeds. -/
lemma registerToks_ids (q : String) (toks : List Json)
    (acc : List Json × List (Json × Json))
    (h : ∀ t ∈ toks, hashableKey t = true) :
    ∃ nmap, registerToks (Json.str q) toks acc = Except.ok (acc.1 ++ toks, nmap) := by
  induction toks generalizing acc with
  | nil => exact ⟨acc.2, by simp [registerToks]⟩
  | cons t ts ih =>
    obtain ⟨nmap, hrec⟩ := ih (acc.1 ++ [t], dictInsert acc.2 t (Json.str q))
      (fun u hu => h u (List.mem_cons_of_mem t hu))
    refine ⟨nmap, ?_⟩
    rw [registerToks, if_pos (h t (List.mem_cons_self t ts)), hrec]
    simp

/-- Processing one listing object reduces to iterating its token-list
field (the question and volume extractions of `mkMarket` succeed). -/
lemma marketStep_mkMarket (acc : List Json × List (Json × Json)) (v : Json) :
    marketStep acc (mkMarket v) =
      match iterTokens v with
      | Except.error e => Except.error e
      | Except.ok toks => registerToks (Json.str "Q") toks acc := rfl

/-- C8 counterexample: a token list delivered as the string `"tokA"` is
iterated character-by-character — four one-character identifiers are
registered, not the single identifier the literal-list form yields. -/
theorem token_string_form_cex :
    (discoverMarkets [mkMarket (Json.arr [Json.str "tokA"])]).map Prod.fst
      = Except.ok [Json.str "tokA"]
    ∧ (discoverMarkets [mkMarket (Json.str "tokA")]).map Prod.fst
      = Except.ok [Json.str "t", Json.str "o", Json.str "k", Json.str "A"]
    ∧ (4 : ℕ) ≠ 1 :=
  ⟨rfl, rfl, by decide⟩

/-- C8 (amended): market discovery iterates the token-list field directly:
a literal list registers exactly its elements; a string form is iterated
character-by-character with no secondary parse; an absent or empty
token-list field makes the market contribute nothing while the pass
continues to later markets; and a non-iterable field value (e.g. `null`)
raises `TypeError` and aborts the whole pass. -/
theorem token_list_forms (ts : List String) (s : String) :
    ((discoverMarkets [mkMarket (Json.arr (ts.map Json.str))]).map Prod.fst
      = Except.ok (ts.map Json.str))
    ∧ ((discoverMarkets [mkMarket (Json.str s)]).map Prod.fst
      = Except.ok (s.toList.map fun c => Json.str c.toString))
    ∧ ((discoverMarkets [mkMarketNoToks, mkMarket (Json.arr (ts.map Json.str))]).map Prod.fst
      = Except.ok (ts.map Json.str))
    ∧ (discoverMarkets [mkMarket (Json.arr [])] = Except.ok ([], []))
    ∧ (discoverMarkets [mkMarket Json.null, mkMarket (Json.arr (ts.map Json.str))]
      = Except.error PyErr.typeError) := by
  have hlist : ∀ u ∈ ts.map Json.str, hashableKey u = true := by
    intro u hu
    obtain ⟨x, _, rfl⟩ := List.mem_map.mp hu
    rfl
  have hchars : ∀ u ∈ s.toList.map (fun c => Json.str c.toString), hashableKey u = true := by
    intro u hu
    obtain ⟨x, _, rfl⟩ := List.mem_map.mp hu
    rfl
  obtain ⟨nm1, hr1⟩ := registerToks_ids "Q" (ts.map Json.str) ([], []) hlist
  obtain ⟨nm2, hr2⟩ := registerToks_ids "Q" (s.toList.map fun c => Json.str c.toString)
    ([], []) hchars
  refine ⟨?_, ?_, ?_, rfl, rfl⟩
  · show (discoverGo [mkMarket (Json.arr (ts.map Json.str))] ([], [])).map Prod.fst = _
    rw [discoverGo, marketStep_mkMarket]
    simp [iterTokens, hr1, discoverGo, Except.map]
  · show (discoverGo [mkMarket (Json.str s)] ([], [])).map Prod.fst = _
    simp only [String.toList] at hr2
    rw [discoverGo, marketStep_mkMarket]
    simp [iterTokens, hr2, discoverGo, Except.map, String.toList]
  · show (discoverGo [mkMarketNoToks, mkMarket (Json.arr (ts.map Json.str))]
        ([], [])).map Prod.fst = _
    rw [show discoverGo [mkMarketNoToks, mkMarket (Json.arr (ts.map Json.str))] ([], [])
        = discoverGo [mkMarket (Json.arr (ts.map Json.str))] ([], []) from rfl]
    rw [discoverGo, marketStep_mkMarket]
    simp [iterTokens, hr1, discoverGo, Except.map]

/-! ## C9 — the upsert keeps `question` on conflict -/

/-- Updating the matching entries in place rewrites the first match's
value and nothing about its key. -/
lemma lookup_map_update (tbl : List (String × MarketRow)) (tid : String)
    (row : MarketRow) (f : MarketRow → MarketRow)
    (h : tbl.lookup tid = some row) :
    (tbl.map (fun p => if p.1 == tid then (p.1, f p.2) else p)).lookup tid
      = some (f row) := by
  induction tbl with
  | nil => simp at h
  | cons a rest ih =>
    obtain ⟨k, v⟩ := a
    rcases eq_or_ne k tid with rfl | hk
    · simp only [List.lookup, beq_self_eq_true] at h
      have hhead : (if (((k, v) : String × MarketRow).1 == k) = true
          then (((k, v) : String × MarketRow).1, f ((k, v) : String × MarketRow).2)
          else ((k, v) : String × MarketRow)) = (k, f v) := by simp
      rw [List.map_cons, hhead]
      simp only [List.lookup, beq_self_eq_true]
      exact congrArg (fun x => some (f x)) (Option.some.inj h)
    · have h1 : (tid == k) = false := beq_eq_false_iff_ne.mpr (Ne.symm hk)
      have h2 : (k == tid) = false := beq_eq_false_iff_ne.mpr hk
      simp only [List.lookup, h1] at h
      have hhead : (if (((k, v) : String × MarketRow).1 == tid) = true
          then (((k, v) : String × MarketRow).1, f ((k, v) : String × MarketRow).2)
          else ((k, v) : String × MarketRow)) = (k, v) := by simp [h2]
      rw [List.map_cons, hhead]
      simp only [List.lookup, h1]
      exact ih h

/-- Appending a fresh key is found by a later lookup of that key. -/
lemma lookup_append_self (tbl : List (String × MarketRow)) (tid : String)
    (r : MarketRow) (h : tbl.lookup tid = none) :
    (tbl ++ [(tid, r)]).lookup tid = some r := by
  induction tbl with
  | nil => simp [List.lookup]
  | cons a rest ih =>
    obtain ⟨k, v⟩ := a
    rcases eq_or_ne k tid with rfl | hk
    · simp only [List.lookup, beq_self_eq_true] at h
      exact absurd h (by simp)
    · have h1 : (tid == k) = false := beq_eq_false_iff_ne.mpr (Ne.symm hk)
      simp only [List.lookup, h1] at h
      simp only [List.cons_append, List.lookup, h1]
      exact ih h

/-- C9: on a `token_id` conflict `upsert_market` overwrites only `name`,
`volume_24h` and `last_seen`; the stored `question` keeps the value of the
first insert for that key, and only a fresh insert sets it. -/
theorem upsert_preserves_question (tbl : List (String × MarketRow))
    (tid n q : String) (v : ℚ) (now : String) :
    (∀ row, tbl.lookup tid = some row →
        (upsert_market tbl tid n q v now).lookup tid
          = some { name := n, question := row.question, volume_24h := v, last_seen := now })
    ∧ (tbl.lookup tid = none →
        (upsert_market tbl tid n q v now).lookup tid
          = some { name := n, question := q, volume_24h := v, last_seen := now }) := by
  constructor
  · intro row hrow
    unfold upsert_market
    rw [if_pos (by rw [hrow]; rfl : (tbl.lookup tid).isSome = true)]
    exact lookup_map_update tbl tid row
      (fun r => { name := n, question := r.question, volume_24h := v, last_seen := now }) hrow
  · intro hnone
    unfold upsert_market
    rw [if_neg (by rw [hnone]; simp : ¬ (tbl.lookup tid).isSome = true)]
    exact lookup_append_self tbl tid _ hnone

theorem upsert_preserves_question_witness :
    (upsert_market [("T", rowW)] "T" "new name" "new question" 2 "d1").lookup "T"
      = some { name := "new name", question := "orig question", volume_24h := 2,
               last_seen := "d1" } :=
  (upsert_preserves_question [("T", rowW)] "T" "new name" "new question" 2 "d1").1 rowW rfl

end PolyInsider
